import Mathlib

/-!
# Verification of the terminalReminder repository

Shallow embedding of the reminder CLI (src/remindMe.py), the natural-language
parser (src/reminderParser.py) and the two notifier daemons
(src/reminderNotifier.py, src/reminder_notifier.py), together with theorems
settling the specification claims.

Modelling conventions:
* Naive local datetimes are plain integers counting seconds; the
  Python datetime operations used by the code (now, combine, .date(), .time(),
  timedelta addition, comparison) become integer arithmetic at one-second
  granularity, which is the precision the spec commits to.
* Text is a Lean String / List Char; the concrete regular expressions of the
  source are implemented directly as matching functions with Python re
  semantics (leftmost search, ordered alternation with backtracking, greedy
  quantifiers, IGNORECASE where the source requests it).
* The external dateparser library (reminderParser.py) is abstracted as a
  function parameter dp : String -> Option Int giving the instant it returns
  for a text, or none on failure; the differing settings dictionaries are
  elided since no claim depends on them.
* I/O effects (file store, process probe, notification sink) are modelled by
  explicit state passing; fallible steps return Option.
-/

namespace TerminalReminder

set_option maxHeartbeats 1600000

/-- Seconds per day, for datetime.date()/time() decomposition and
timedelta(days=...) arithmetic. -/
def secsPerDay : Int := 86400

/-- Python datetime .time() as seconds since local midnight. -/
def timeOfDay (t : Int) : Int := t % secsPerDay

/-- Python datetime .date() as the instant of local midnight of that day. -/
def dateFloor (t : Int) : Int := t - timeOfDay t

/-- datetime.datetime.combine(d.date(), tm) where tm is seconds since
midnight. -/
def combineDT (d : Int) (tm : Int) : Int := dateFloor d + tm

theorem timeOfDay_nonneg (t : Int) : 0 ≤ timeOfDay t :=
  Int.emod_nonneg t (by norm_num [secsPerDay])

theorem timeOfDay_lt (t : Int) : timeOfDay t < secsPerDay :=
  Int.emod_lt_of_pos t (by norm_num [secsPerDay])

/-! ## Character and string helpers (Python str / re semantics) -/

/-- Python regex \s for the ASCII whitespace classes the inputs can contain. -/
def isWs (c : Char) : Bool :=
  c = ' ' || c = '\t' || c = '\n' || c = '\x0b' || c = '\x0c' || c = '\r'

/-- Python regex \d (ASCII). -/
def isDigitCh (c : Char) : Bool := '0' ≤ c && c ≤ '9'

/-- Python regex \w (ASCII part, sufficient for the inputs modelled). -/
def isWordCh (c : Char) : Bool := c.isAlpha || isDigitCh c || c = '_'

/-- ASCII lowering, Python str.lower on the inputs modelled. -/
def lowCh (c : Char) : Char := c.toLower

def lowerL (cs : List Char) : List Char := cs.map lowCh

/-- Python str.strip (both ends, whitespace). -/
def pyStrip (cs : List Char) : List Char :=
  ((cs.dropWhile isWs).reverse.dropWhile isWs).reverse

/-- Numeric value of a decimal digit character. -/
def digitVal (c : Char) : Nat := c.toNat - 48

/-- Python int() of a nonempty decimal-digit string, as matched by \d+. -/
def digitsToNat (cs : List Char) : Nat :=
  cs.foldl (fun a c => a * 10 + digitVal c) 0

/-- Case-sensitive literal match at the head; returns the remainder. -/
def matchLit : List Char → List Char → Option (List Char)
  | [], cs => some cs
  | _ :: _, [] => none
  | l :: ls, c :: cs => if c = l then matchLit ls cs else none

/-- Case-insensitive literal match at the head (re.IGNORECASE). -/
def matchLitCI : List Char → List Char → Option (List Char)
  | [], cs => some cs
  | _ :: _, [] => none
  | l :: ls, c :: cs => if lowCh c = lowCh l then matchLitCI ls cs else none

/-- Length consumed by a match that returned remainder rest out of cs. -/
def consumedLen (cs rest : List Char) : Nat := cs.length - rest.length

/-- re.finditer driver keeping the last match, the way repeated dict
assignment in ReminderParser._extract_time_components keeps only the last
match of each pattern.  matchAt returns the extracted value plus the number
of characters the match consumed (always at least 1 for the patterns used);
scanning restarts right after each match, one character further on failure. -/
def scanLastAux (matchAt : List Char → Option (α × Nat)) :
    Nat → List Char → Option α → Option α
  | 0, _, acc => acc
  | _ + 1, [], acc => acc
  | n + 1, cs@(_ :: rest), acc =>
    match matchAt cs with
    | some (a, k) => scanLastAux matchAt n (cs.drop k) (some a)
    | none => scanLastAux matchAt n rest acc

def scanLast (matchAt : List Char → Option (α × Nat)) (cs : List Char) :
    Option α :=
  scanLastAux matchAt (cs.length + 1) cs none

/-- re.search driver: leftmost match only. -/
def searchFirst (matchAt : List Char → Option α) : List Char → Option α
  | [] => none
  | cs@(_ :: rest) =>
    match matchAt cs with
    | some a => some a
    | none => searchFirst matchAt rest

/-- \s+ at the head: at least one whitespace character, consumed greedily. -/
def takeWs1 (cs : List Char) : Option (List Char) :=
  match cs with
  | c :: rest => if isWs c then some (rest.dropWhile isWs) else none
  | [] => none

/-! ## ReminderParser (src/reminderParser.py): time component extraction

Each TIME_PATTERNS regex becomes a matching function at a position, run
through the finditer driver; the stored component is the last match, exactly
as repeated dict assignment keeps only the last one. -/

/-- Unit alternatives of TIME_PATTERNS of key interval, in regex alternation
order (first alternative that matches wins; nothing after the unit can fail,
so no backtracking across alternatives occurs). -/
def intervalUnits : List String :=
  ["second", "minute", "hour", "day", "week", "month", "year",
   "sec", "min", "hr", "s", "m", "h", "d", "w", "y"]

structure IntervalData where
  quantity : Nat
  unit : String
  full_match : String
deriving DecidableEq, Repr

/-- Pattern of key interval at a position: in\s+(\d+)\s*(units)s? -/
def matchIntervalAt (cs : List Char) : Option (IntervalData × Nat) := do
  let r1 ← matchLit ['i', 'n'] cs
  let r2 ← takeWs1 r1
  let ds := r2.takeWhile isDigitCh
  guard (ds ≠ [])
  let r3 := (r2.dropWhile isDigitCh).dropWhile isWs
  let (u, r4) ← intervalUnits.findSome? fun u => (matchLit u.data r3).map (u, ·)
  let r5 := match r4 with
    | 's' :: t => t
    | t => t
  let len := consumedLen cs r5
  return (⟨digitsToNat ds, u, String.mk (cs.take len)⟩, len)

/-- am|pm at the head of the lowercased text. -/
def matchAmPmL : List Char → Option (List Char)
  | 'a' :: 'm' :: r => some r
  | 'p' :: 'm' :: r => some r
  | _ => none

/-- (?::\d{2})?\s*(?:am|pm) after the hour digits; the optional colon group
is tried first and backtracked regex-style if the rest fails. -/
def timeCoreTail (cs : List Char) : Option (List Char) :=
  (match cs with
   | ':' :: a :: b :: r =>
     if isDigitCh a && isDigitCh b then matchAmPmL (r.dropWhile isWs) else none
   | _ => none) <|>
  matchAmPmL (cs.dropWhile isWs)

/-- \d{1,2}(?::\d{2})?\s*(?:am|pm) at a position, returning the remainder;
the greedy two-digit branch is tried before the one-digit branch. -/
def matchTimeCoreAt (cs : List Char) : Option (List Char) :=
  match cs with
  | a :: rest =>
    if isDigitCh a then
      (match rest with
       | b :: r2 => if isDigitCh b then timeCoreTail r2 else none
       | [] => none) <|> timeCoreTail rest
    else none
  | [] => none

structure TimeMatch where
  full_match : String
  time_value : String
deriving DecidableEq, Repr

/-- Pattern of key specific_time; value, full_match and time_value all equal
the whole match. -/
def matchSpecificTimeAt (cs : List Char) : Option (TimeMatch × Nat) :=
  (matchTimeCoreAt cs).map fun rest =>
    let len := consumedLen cs rest
    let s := String.mk (cs.take len)
    (⟨s, s⟩, len)

/-- Pattern of key time_with_at: at\s+(time); time_value is group 1. -/
def matchTimeWithAtAt (cs : List Char) : Option (TimeMatch × Nat) := do
  let r1 ← matchLit ['a', 't'] cs
  let r2 ← takeWs1 r1
  let rest ← matchTimeCoreAt r2
  let len := consumedLen cs rest
  return (⟨String.mk (cs.take len), String.mk (r2.take (consumedLen r2 rest))⟩,
    len)

/-- Month alternatives of the date pattern in alternation order, lowercased
(the scan runs on the lowercased text under IGNORECASE). -/
def monthAlts : List String :=
  ["january", "february", "march", "april", "may", "june", "july", "august",
   "september", "october", "november", "december",
   "jan", "feb", "mar", "apr", "may", "jun", "jul", "aug", "sep", "oct",
   "nov", "dec"]

structure DateData where
  day : String
  month : String
  year : Option String
  full_match : String
deriving DecidableEq, Repr

/-- (?:st|nd|rd|th)? branches after the day digits: the matching ordinal (at
most one can) followed by the empty branch, in regex order. -/
def ordinalBranches (cs : List Char) : List (List Char × List Char) :=
  (["st", "nd", "rd", "th"].filterMap fun o =>
    (matchLit o.data cs).map fun r => (o.data, r)) ++ [([], cs)]

/-- \s+(?:of\s+)?(month)(?:\s+(\d{4}))? — the tail of the date pattern.  The
optional of-group keeps its match only when \s+ follows (no month name starts
with of plus whitespace, so no cross-group backtracking can succeed). -/
def matchDateTail (cs : List Char) :
    Option (String × Option String × List Char) := do
  let r1 ← takeWs1 cs
  let r2 := match matchLit ['o', 'f'] r1 with
    | some ra =>
      match takeWs1 ra with
      | some rb => rb
      | none => r1
    | none => r1
  let (m, r3) ← monthAlts.findSome? fun u => (matchLit u.data r2).map (u, ·)
  match takeWs1 r3 with
  | some r4 =>
    match r4 with
    | a :: b :: c :: d :: r5 =>
      if isDigitCh a && isDigitCh b && isDigitCh c && isDigitCh d then
        return (m, some (String.mk [a, b, c, d]), r5)
      else return (m, none, r3)
    | _ => return (m, none, r3)
  | none => return (m, none, r3)

/-- Date pattern continuation once the day digits are fixed. -/
def matchDateFrom (cs dayDigits rest : List Char) : Option (DateData × Nat) :=
  (ordinalBranches rest).findSome? fun (o, r1) =>
    (matchDateTail r1).map fun (m, y, r2) =>
      let len := consumedLen cs r2
      (⟨String.mk (dayDigits ++ o), m, y, String.mk (cs.take len)⟩, len)

/-- Pattern of key date at a position:
(\d{1,2}(?:st|nd|rd|th)?)\s+(?:of\s+)?(month)(?:\s+(\d{4}))? -/
def matchDateAt (cs : List Char) : Option (DateData × Nat) :=
  match cs with
  | a :: b :: r =>
    if isDigitCh a then
      (if isDigitCh b then matchDateFrom cs [a, b] r else none) <|>
        matchDateFrom cs [a] (b :: r)
    else none
  | _ => none

def matchTodayAt (cs : List Char) : Option (String × Nat) :=
  (matchLit "today".data cs).map fun r => ("today", consumedLen cs r)

def matchTomorrowAt (cs : List Char) : Option (String × Nat) :=
  (matchLit "tomorrow".data cs).map fun r => ("tomorrow", consumedLen cs r)

/-- next\s+week and next\s+month patterns. -/
def matchNextAt (word : String) (cs : List Char) : Option (String × Nat) := do
  let r1 ← matchLit "next".data cs
  let r2 ← takeWs1 r1
  let r3 ← matchLit word.data r2
  let len := consumedLen cs r3
  return (String.mk (cs.take len), len)

structure TimeComponents where
  specific_time : Option TimeMatch
  time_with_at : Option TimeMatch
  interval : Option IntervalData
  date : Option DateData
  today : Option String
  tomorrow : Option String
  next_week : Option String
  next_month : Option String
deriving DecidableEq, Repr

/-- ReminderParser._extract_time_components on the lowercased stripped text. -/
def extractTimeComponents (text : List Char) : TimeComponents where
  specific_time := scanLast matchSpecificTimeAt text
  time_with_at := scanLast matchTimeWithAtAt text
  interval := scanLast matchIntervalAt text
  date := scanLast matchDateAt text
  today := scanLast matchTodayAt text
  tomorrow := scanLast matchTomorrowAt text
  next_week := scanLast (matchNextAt "week") text
  next_month := scanLast (matchNextAt "month") text

/-- One KEYWORDS pattern at a position; later has no trailing boundary, the
others end with \b (next char not a word character, or end of text). -/
def kwMatchesAt (kw : List Char) (bound : Bool) (cs : List Char) : Bool :=
  match matchLit kw cs with
  | some rest =>
    if bound then
      match rest with
      | [] => true
      | c :: _ => !isWordCh c
    else true
  | none => false

/-- re.search for a keyword pattern: any position of the text. -/
def kwPresent (kw : List Char) (bound : Bool) : List Char → Bool
  | [] => false
  | cs@(_ :: rest) => kwMatchesAt kw bound cs || kwPresent kw bound rest

/-- ReminderParser._identify_keywords, as the ordered list of detected
keywords (Python dict insertion order follows the KEYWORDS literal). -/
def identifyKeywords (text : List Char) : List String :=
  [("later", false), ("at", true), ("on", true), ("by", true),
   ("before", true)].filterMap fun (kw, b) =>
    if kwPresent (String.data kw) b text then some kw else none

/-! ## ReminderParser: trigger time resolution and message extraction -/

def lowerStr (s : String) : String := String.mk (lowerL s.data)

/-- TIME_UNITS.get(unit.lower(), 60): the unit-seconds dictionary with its
default of 60 for unknown units.  Note the dictionary has no key y even
though the interval pattern accepts y as a unit. -/
def timeUnitsGet (unit : String) : Nat :=
  let u := lowerStr unit
  if u = "second" then 1 else if u = "sec" then 1 else if u = "s" then 1
  else if u = "minute" then 60 else if u = "min" then 60 else if u = "m" then 60
  else if u = "hour" then 3600 else if u = "hr" then 3600
  else if u = "h" then 3600
  else if u = "day" then 86400 else if u = "d" then 86400
  else if u = "week" then 604800 else if u = "w" then 604800
  else if u = "month" then 2592000
  else if u = "year" then 31536000
  else 60

/-- The tomorrow / next week / next month day-adjustment chain of
_determine_trigger_time. -/
def dayAdjustment (tc : TimeComponents) : Int :=
  if tc.tomorrow.isSome then 1
  else if tc.next_week.isSome then 7
  else if tc.next_month.isSome then 30
  else 0

/-- The date_str built for dateparser from a date component. -/
def dateValueStr (d : DateData) : String :=
  d.day ++ " " ++ d.month ++
    (match d.year with
     | some y => " " ++ y
     | none => "")

/-- The time_value selection of _determine_trigger_time: time_with_at is
preferred over specific_time. -/
def timeValueOf (tc : TimeComponents) : Option String :=
  match tc.time_with_at with
  | some t => some t.time_value
  | none => tc.specific_time.map (·.time_value)

/-- ReminderParser._determine_trigger_time.  dp abstracts dateparser.parse;
text is the lowercased stripped input (used by the final free-text fallback).
Control flow follows the source: an interval wins outright; then time plus
date combine through dateparser; a lone time is re-anchored to the current
date and either day-adjusted or rolled forward a day when not in the future;
a lone date gets the default 09:00; otherwise the whole text is tried. -/
def determineTriggerTime (dp : String → Option Int) (text : List Char)
    (tc : TimeComponents) (now : Int) : Option Int :=
  match tc.interval with
  | some iv => some (now + (iv.quantity : Int) * (timeUnitsGet iv.unit : Int))
  | none =>
    let time_value : Option String := timeValueOf tc
    let date_value : Option String := tc.date.map dateValueStr
    let adj := dayAdjustment tc
    match time_value, date_value with
    | some tv, some dv => dp (dv ++ " " ++ tv)
    | some tv, none =>
      match dp tv with
      | some pt =>
        let t0 := combineDT now (timeOfDay pt)
        if adj > 0 then some (t0 + adj * secsPerDay)
        else if t0 ≤ now then some (t0 + secsPerDay)
        else some t0
      | none => dp (String.mk text)
    | none, some dv =>
      match dp dv with
      | some pd => some (combineDT pd (9 * 3600))
      | none => dp (String.mk text)
    | none, none => dp (String.mk text)

/-- One re.sub pass replacing every occurrence of \s* literal \s* by a single
space, IGNORECASE — the removal idiom of _extract_message.  Fuelled
recursion; the literal is nonempty, so every step consumes at least one
character and fuel length+1 suffices. -/
def subWsLitWsAux (lit : List Char) : Nat → List Char → List Char
  | 0, cs => cs
  | _ + 1, [] => []
  | n + 1, c :: rest =>
    match matchLitCI lit ((c :: rest).dropWhile isWs) with
    | some r => ' ' :: subWsLitWsAux lit n (r.dropWhile isWs)
    | none => c :: subWsLitWsAux lit n rest

def subWsLitWs (lit : List Char) (cs : List Char) : List Char :=
  if lit = [] then cs else subWsLitWsAux lit (cs.length + 1) cs

/-- re.sub of the anchored pattern caret \s* keyword \b \s* with the empty
string: strip one keyword at the very start of the message. -/
def removeLeadingKw (kw : List Char) (cs : List Char) : List Char :=
  let rest := cs.dropWhile isWs
  match matchLitCI kw rest with
  | some r =>
    let boundary := match r with
      | [] => true
      | c :: _ => !isWordCh c
    if boundary then r.dropWhile isWs else cs
  | none => cs

/-- re.sub(\s+, space): collapse whitespace runs. -/
def collapseWsAux : Nat → List Char → List Char
  | 0, cs => cs
  | _ + 1, [] => []
  | n + 1, c :: rest =>
    if isWs c then ' ' :: collapseWsAux n (rest.dropWhile isWs)
    else c :: collapseWsAux n rest

def collapseWs (cs : List Char) : List Char := collapseWsAux (cs.length + 1) cs

/-- The dangling-preposition alternation at|on|by|in|for|before in source
order. -/
def danglers : List String := ["at", "on", "by", "in", "for", "before"]

/-- Strip one trailing preposition preceded by whitespace (the anchored sub
with pattern \s+ alternation dollar, IGNORECASE). -/
def removeTrailingDangler (cs : List Char) : List Char :=
  let r := cs.reverse
  match danglers.findSome? (fun w =>
    match matchLitCI w.data.reverse r with
    | some rest =>
      match rest with
      | c :: _ => if isWs c then some (rest.dropWhile isWs) else none
      | [] => none
    | none => none) with
  | some rest' => rest'.reverse
  | none => cs

/-- Strip one leading preposition followed by whitespace (the anchored sub
with pattern caret alternation \s+, IGNORECASE). -/
def removeLeadingDangler (cs : List Char) : List Char :=
  match danglers.findSome? (fun w =>
    match matchLitCI w.data cs with
    | some rest =>
      match rest with
      | c :: _ => if isWs c then some (rest.dropWhile isWs) else none
      | [] => none
    | none => none) with
  | some rest' => rest'
  | none => cs

/-- keyword \s+ literal at a position (IGNORECASE), returning the matched
substring of the message with its original casing. -/
def matchKwWsLitAt (kw lit cs : List Char) : Option (List Char) := do
  let r1 ← matchLitCI kw cs
  let r2 ← takeWs1 r1
  let r3 ← matchLitCI lit r2
  return cs.take (consumedLen cs r3)

/-- re.search for preposition-plus-component phrases such as on date or at
time inside the case-preserved message. -/
def searchPrepPattern (kw lit msg : List Char) : Option (List Char) :=
  searchFirst (matchKwWsLitAt kw lit) msg

/-- The final fallback of _extract_message: an empty remainder becomes the
literal default message. -/
def messageOrDefault (m : List Char) : String :=
  if m = [] then "Reminder" else String.mk m

/-- The ordered full_match list of the present components — Python dict
iteration order of time_components, which is the TIME_PATTERNS literal
order. -/
def componentFullMatches (tc : TimeComponents) : List String :=
  [tc.specific_time.map (·.full_match), tc.time_with_at.map (·.full_match),
   tc.interval.map (·.full_match), tc.date.map (·.full_match),
   tc.today, tc.tomorrow, tc.next_week, tc.next_month].filterMap id

/-- ReminderParser._extract_message on the case-preserved original text. -/
def extractMessage (original : List Char) (tc : TimeComponents)
    (kws : List String) : String :=
  let prepPats : List (List Char) :=
    (match tc.date with
     | some d => (searchPrepPattern "on".data d.full_match.data original).toList
     | none => []) ++
    (match tc.specific_time with
     | some t =>
       (searchPrepPattern "at".data t.full_match.data original).toList
     | none => [])
  let m1 := prepPats.foldl (fun m p => subWsLitWs p m) original
  let m2 := (componentFullMatches tc).foldl (fun m p => subWsLitWs p.data m) m1
  let m3 := kws.foldl (fun m kw => removeLeadingKw kw.data m) m2
  let m4 := pyStrip (collapseWs m3)
  let m5 := removeLeadingDangler (removeTrailingDangler m4)
  messageOrDefault m5

structure ParseResult where
  trigger_time : Option Int
  message : String
deriving DecidableEq, Repr

/-- ReminderParser(text).parse(): the parse orchestration.  dp abstracts
dateparser.parse and now the sampled current instant; the diagnostic
time_expression output is not modelled (no claim mentions it). -/
def reminderParserParse (dp : String → Option Int) (input : String)
    (now : Int) : ParseResult :=
  let original := pyStrip input.data
  let text := pyStrip (lowerL input.data)
  let tc := extractTimeComponents text
  let kws := identifyKeywords text
  { trigger_time := determineTriggerTime dp text tc now
    message := extractMessage original tc kws }

/-- Module-level parse_reminder of reminderParser.py: none when no trigger
time was resolved (the ParseFailure of the spec). -/
def parse_reminder_mod (dp : String → Option Int) (input : String)
    (now : Int) : Option ParseResult :=
  let r := reminderParserParse dp input now
  match r.trigger_time with
  | some _ => some r
  | none => none

/-! ## The CLI's own parse path (src/remindMe.py)

remindMe.py does not import ReminderParser; process_reminder uses the
module's own parse_reminder / calculate_seconds_until, modelled here. -/

/-- Python str.replace(old, new-empty): delete every occurrence of the
nonempty, case-sensitive substring old. -/
def pyReplaceAllAux (old : List Char) : Nat → List Char → List Char
  | 0, cs => cs
  | _ + 1, [] => []
  | n + 1, c :: rest =>
    match matchLit old (c :: rest) with
    | some r => pyReplaceAllAux old n r
    | none => c :: pyReplaceAllAux old n rest

def pyReplaceAll (old cs : List Char) : List Char :=
  if old = [] then cs else pyReplaceAllAux old (cs.length + 1) cs

/-- Python str.replace(space, empty): drop space characters (only the space
character, not other whitespace). -/
def removeSpaces (cs : List Char) : List Char := cs.filter (· ≠ ' ')

/-- at (\d{1,2}(?::\d{2})?\s*(?:am|pm)?) at a position under IGNORECASE: the
literal is at plus one space, and am or pm is optional here.  Everything
after the digits is optional, so the greedy choices are final.  Returns
(group 0, group 1). -/
def remindMeAtPatternAt (cs : List Char) : Option (List Char × List Char) := do
  let r1 ← matchLitCI "at ".data cs
  let d1 :: r2 := r1 | none
  guard (isDigitCh d1)
  let r3 := match r2 with
    | b :: rb => if isDigitCh b then rb else r2
    | [] => r2
  let r4 := match r3 with
    | ':' :: a :: b :: rb => if isDigitCh a && isDigitCh b then rb else r3
    | _ => r3
  let r5 := r4.dropWhile isWs
  let r6 := match r5 with
    | a :: b :: rb =>
      if (lowCh a = 'a' || lowCh a = 'p') && lowCh b = 'm' then rb else r5
    | _ => r5
  return (cs.take (consumedLen cs r6), r1.take (consumedLen r1 r6))

/-- in (\d+)\s*(second|minute|hour|sec|min|s|m|h)s? at a position under
IGNORECASE (the unit list here is smaller than the ReminderParser one: no
day, week, month or year).  Returns (group 0, amount, unit as matched). -/
def remindMeInUnits : List String :=
  ["second", "minute", "hour", "sec", "min", "s", "m", "h"]

def remindMeInPatternAt (cs : List Char) :
    Option (List Char × Nat × String) := do
  let r1 ← matchLitCI "in ".data cs
  let ds := r1.takeWhile isDigitCh
  guard (ds ≠ [])
  let r2 := (r1.dropWhile isDigitCh).dropWhile isWs
  let (u, r3) ← remindMeInUnits.findSome? fun u =>
    (matchLitCI u.data r2).map (u, ·)
  let r4 := match r3 with
    | c :: t => if lowCh c = 's' then t else r3
    | [] => r3
  return (cs.take (consumedLen cs r4), digitsToNat ds, u)

/-- The transient time_info dict of remindMe.parse_reminder. -/
inductive TimeInfo where
  | at_ (time_str : String) (message : String)
  | in_ (amount : Nat) (unit : String) (message : String)
deriving DecidableEq, Repr

def TimeInfo.message : TimeInfo → String
  | .at_ _ m => m
  | .in_ _ _ m => m

/-- remindMe.parse_reminder: the at-pattern is searched first and wins over
the in-pattern; the message is the raw text with the matched phrase deleted
and stripped — with no nonempty fallback. -/
def remindMe_parse_reminder (text : String) : Option TimeInfo :=
  match searchFirst remindMeAtPatternAt text.data with
  | some (g0, g1) =>
    some (.at_ (String.mk (pyStrip g1))
      (String.mk (pyStrip (pyReplaceAll g0 text.data))))
  | none =>
    match searchFirst remindMeInPatternAt text.data with
    | some (g0, amount, unit) =>
      some (.in_ amount (lowerStr unit)
        (String.mk (pyStrip (pyReplaceAll g0 text.data))))
    | none => none

/-! ### datetime.strptime on the format cascade of calculate_seconds_until

Formats tried in order: %I:%M%p, %I:%M %p, %H:%M, %I%p, %I %p.  CPython
compiles a format to one IGNORECASE regex — %I to (1[0-2]|0[1-9]|[1-9]),
%H to (2[0-3]|[0-1]\d|\d), %M to ([0-5]\d|\d), %p to (am|pm), and whitespace
in the format to \s+ — anchored at the start, and errors unless the whole
string is consumed.  Each directive is modelled as its ordered candidate
list so alternation backtracking is exact. -/

/-- %I candidates (value, rest) in regex alternation order. -/
def candI : List Char → List (Nat × List Char)
  | '1' :: c :: r =>
    if '0' ≤ c && c ≤ '2' then [(10 + digitVal c, r), (1, c :: r)]
    else [(1, c :: r)]
  | ['1'] => [(1, [])]
  | '0' :: c :: r => if '1' ≤ c && c ≤ '9' then [(digitVal c, r)] else []
  | c :: r => if '2' ≤ c && c ≤ '9' then [(digitVal c, r)] else []
  | [] => []

/-- %H candidates in regex alternation order. -/
def candH : List Char → List (Nat × List Char)
  | c1 :: c2 :: r =>
    (if c1 = '2' && '0' ≤ c2 && c2 ≤ '3' then [(20 + digitVal c2, r)]
     else []) ++
    (if (c1 = '0' || c1 = '1') && isDigitCh c2 then
      [(10 * digitVal c1 + digitVal c2, r)] else []) ++
    (if isDigitCh c1 then [(digitVal c1, c2 :: r)] else [])
  | [c] => if isDigitCh c then [(digitVal c, [])] else []
  | [] => []

/-- %M candidates in regex alternation order. -/
def candM : List Char → List (Nat × List Char)
  | c1 :: c2 :: r =>
    (if '0' ≤ c1 && c1 ≤ '5' && isDigitCh c2 then
      [(10 * digitVal c1 + digitVal c2, r)] else []) ++
    (if isDigitCh c1 then [(digitVal c1, c2 :: r)] else [])
  | [c] => if isDigitCh c then [(digitVal c, [])] else []
  | [] => []

/-- %p: am or pm, IGNORECASE; true for pm. -/
def candP : List Char → Option (Bool × List Char)
  | a :: b :: r =>
    if lowCh a = 'a' && lowCh b = 'm' then some (false, r)
    else if lowCh a = 'p' && lowCh b = 'm' then some (true, r)
    else none
  | _ => none

/-- strptime %I/%p combination to a 24-hour value. -/
def hour12to24 (h : Nat) (pm : Bool) : Nat :=
  if pm then (if h = 12 then 12 else h + 12)
  else (if h = 12 then 0 else h)

/-- %I:%M%p, whole string, to seconds since midnight. -/
def fmtIMp (cs : List Char) : Option Nat :=
  (candI cs).findSome? fun (h, r1) =>
    match r1 with
    | ':' :: r2 =>
      (candM r2).findSome? fun (m, r3) =>
        match candP r3 with
        | some (pm, []) => some (hour12to24 h pm * 3600 + m * 60)
        | _ => none
    | _ => none

/-- %I:%M %p (the format space becomes \s+), whole string. -/
def fmtIMSp (cs : List Char) : Option Nat :=
  (candI cs).findSome? fun (h, r1) =>
    match r1 with
    | ':' :: r2 =>
      (candM r2).findSome? fun (m, r3) =>
        match takeWs1 r3 with
        | some r4 =>
          match candP r4 with
          | some (pm, []) => some (hour12to24 h pm * 3600 + m * 60)
          | _ => none
        | none => none
    | _ => none

/-- %H:%M, whole string. -/
def fmtHM (cs : List Char) : Option Nat :=
  (candH cs).findSome? fun (h, r1) =>
    match r1 with
    | ':' :: r2 =>
      (candM r2).findSome? fun (m, r3) =>
        match r3 with
        | [] => some (h * 3600 + m * 60)
        | _ => none
    | _ => none

/-- %I%p, whole string. -/
def fmtIp (cs : List Char) : Option Nat :=
  (candI cs).findSome? fun (h, r1) =>
    match candP r1 with
    | some (pm, []) => some (hour12to24 h pm * 3600)
    | _ => none

/-- %I %p, whole string. -/
def fmtISp (cs : List Char) : Option Nat :=
  (candI cs).findSome? fun (h, r1) =>
    match takeWs1 r1 with
    | some r2 =>
      match candP r2 with
      | some (pm, []) => some (hour12to24 h pm * 3600)
      | _ => none
    | none => none

/-- The format cascade of calculate_seconds_until: first format that parses
the space-stripped time string wins. -/
def strptimeCascade (cs : List Char) : Option Nat :=
  fmtIMp cs <|> fmtIMSp cs <|> fmtHM cs <|> fmtIp cs <|> fmtISp cs

/-- remindMe.calculate_seconds_until.  For type at: parse the time-of-day,
re-anchor to the current date, roll one day forward when strictly past, and
return the remaining seconds; for type in: the unit chains of the source
(note: no day/week/month/year units — those inputs never reach here because
the in-pattern cannot match them). -/
def calculate_seconds_until (ti : TimeInfo) (now : Int) : Option Int :=
  match ti with
  | .at_ ts _ =>
    match strptimeCascade (removeSpaces ts.data) with
    | none => none
    | some tm =>
      let target := combineDT now (tm : Int)
      let target := if target < now then target + secsPerDay else target
      some (target - now)
  | .in_ amount unit _ =>
    let u := lowerStr unit
    if u = "second" || u = "sec" || u = "s" then some (amount : Int)
    else if u = "minute" || u = "min" || u = "m" then some ((amount : Int) * 60)
    else if u = "hour" || u = "h" then some ((amount : Int) * 3600)
    else none

/-- A persisted ReminderRecord, the JSON store schema of remindMe.py. -/
structure Rec where
  timestamp : Int
  trigger_time : Int
  message : String
  full_command : String
deriving DecidableEq, Repr

/-- remindMe.process_reminder restricted to its store effect: parse, compute
the trigger offset, and on success append the record to the loaded store.
The two datetime.now() samples of the source are merged into the single
instant now; none models the early returns that persist nothing. -/
def process_reminder (text full_command : String) (now : Int)
    (store : List Rec) : Option (List Rec) :=
  match remindMe_parse_reminder text with
  | none => none
  | some ti =>
    match calculate_seconds_until ti now with
    | none => none
    | some secs =>
      let trigger := now + secs
      some (store ++ [⟨now, trigger, ti.message, full_command⟩])

/-! ## The notifier daemons (src/reminderNotifier.py, src/reminder_notifier.py)

One tick of the polling loop: enumerate the loaded records, notify and
collect the index of each record whose trigger_time is not after now, then
delete the collected indices in reverse order and save the remainder. -/

/-- The enumerate pass of the loop body in reminderNotifier.py: notified
messages in scan order and indices to remove, from start index i. -/
def tickScan : List Rec → Int → Nat → List String × List Nat
  | [], _, _ => ([], [])
  | r :: rest, now, i =>
    let p := tickScan rest now (i + 1)
    if r.trigger_time ≤ now then (r.message :: p.1, i :: p.2) else p

/-- Python del reminders[index] for an in-range index. -/
def delIdx : List Rec → Nat → List Rec
  | [], _ => []
  | _ :: rest, 0 => rest
  | r :: rest, n + 1 => r :: delIdx rest n

/-- One tick of reminderNotifier.main between load and save: the notified
message sequence and the record list that gets saved back. -/
def notifierTick (reminders : List Rec) (now : Int) : List String × List Rec :=
  let p := tickScan reminders now 0
  (p.1, p.2.reverse.foldl delIdx reminders)

/-- The same enumerate pass in the duplicate daemon reminder_notifier.py
(its loop body is line-identical). -/
def tickScanDup : List Rec → Int → Nat → List String × List Nat
  | [], _, _ => ([], [])
  | r :: rest, now, i =>
    let p := tickScanDup rest now (i + 1)
    if r.trigger_time ≤ now then (r.message :: p.1, i :: p.2) else p

def delIdxDup : List Rec → Nat → List Rec
  | [], _ => []
  | _ :: rest, 0 => rest
  | r :: rest, n + 1 => r :: delIdxDup rest n

/-- One tick of reminder_notifier.main between load and save. -/
def notifierTickDup (reminders : List Rec) (now : Int) :
    List String × List Rec :=
  let p := tickScanDup reminders now 0
  (p.1, p.2.reverse.foldl delIdxDup reminders)

/-! ### The loop and exception structure of reminderNotifier.main

The try/except in the source wraps the whole while-loop; one iteration is
abstracted as an outcome oracle indexed by the iteration number. -/

/-- What one loop iteration does: completes and emits its notifications,
raises an ordinary exception, or receives KeyboardInterrupt. -/
inductive TickOutcome where
  | ok (msgs : List String)
  | raise (e : String)
  | interrupt
deriving DecidableEq, Repr

/-- Why a (fuel-bounded observation of the) daemon stopped. -/
inductive StopReason where
  | stillRunning
  | errorCaught (e : String)
  | interruptCaught
deriving DecidableEq, Repr

/-- reminderNotifier.main: while True runs iterations until an exception
propagates out of the loop, where the outer try/except catches and logs it
and main returns.  Fuel bounds the observation window of the infinite
loop. -/
def notifierMainRun (ticks : Nat → TickOutcome) :
    Nat → Nat → List String → List String × StopReason
  | 0, _, acc => (acc, .stillRunning)
  | fuel + 1, i, acc =>
    match ticks i with
    | .ok ms => notifierMainRun ticks fuel (i + 1) (acc ++ ms)
    | .raise e => (acc, .errorCaught e)
    | .interrupt => (acc, .interruptCaught)

def notifierMain (ticks : Nat → TickOutcome) (fuel : Nat) :
    List String × StopReason :=
  notifierMainRun ticks fuel 0 []

/-! ## The reminder store (load_reminders in remindMe.py and
reminderNotifier.py, which are line-identical) -/

/-- The state of the backing JSON file. -/
inductive FileState where
  | missing
  | present (contents : String)
deriving DecidableEq

/-- load_reminders with the json module abstracted as a decoder: a missing
file yields the empty list (FileNotFoundError branch), an undecodable file
logs and yields the empty list (JSONDecodeError branch).  The function is
total: within the modelled failure modes load never raises. -/
def load_reminders (decode : String → Option (List Rec)) :
    FileState → List Rec
  | .missing => []
  | .present s =>
    match decode s with
    | some rs => rs
    | none => []

/-! ## The singleton guard (remindMe.is_notifier_running, Unix branch)

The environment carries the lock-file state (absent, present but unreadable
or non-integer, or holding a PID), the os.kill liveness probe, and whether
the pgrep scan for reminderNotifier.py reports a match. -/

inductive LockState where
  | absent
  | unreadable
  | pid (p : Int)
deriving DecidableEq, Repr

structure GuardEnv where
  lock : LockState
  alive : Int → Bool
  scanFound : Bool

/-- is_notifier_running on a Unix platform: with a readable lock the os.kill
probe alone decides and returns (the lock is kept either way); when reading
or parsing the lock raises, the except branch removes the lock and returns
False; the pgrep scan runs only when no lock file exists.  Returns the
result and the lock state afterwards. -/
def is_notifier_running (e : GuardEnv) : Bool × LockState :=
  match e.lock with
  | .pid p => if e.alive p then (true, .pid p) else (false, .pid p)
  | .unreadable => (false, .absent)
  | .absent => (e.scanFound, .absent)

/-! ## Supporting lemmas for the daemon tick (claim C2) -/

theorem tickScan_fst (now : Int) :
    ∀ (rs : List Rec) (i : Nat),
      (tickScan rs now i).1 =
        (rs.filter fun r => decide (r.trigger_time ≤ now)).map Rec.message := by
  intro rs
  induction rs with
  | nil => intro i; rfl
  | cons r rest ih =>
    intro i
    by_cases h : r.trigger_time ≤ now <;>
      simp [tickScan, List.filter_cons, h, ih (i + 1)]

theorem tickScan_snd_shift (now : Int) :
    ∀ (rs : List Rec) (i : Nat),
      (tickScan rs now i).2 = (tickScan rs now 0).2.map (· + i) := by
  intro rs
  induction rs with
  | nil => intro i; rfl
  | cons r rest ih =>
    intro i
    by_cases h : r.trigger_time ≤ now <;>
      simp [tickScan, h, ih (i + 1), ih 1, List.map_map, Function.comp] <;>
      (intros; omega)

theorem foldl_delIdx_shift (r : Rec) :
    ∀ (l : List Nat) (rs : List Rec),
      (l.map (· + 1)).foldl delIdx (r :: rs) = r :: l.foldl delIdx rs := by
  intro l
  induction l with
  | nil => intro rs; rfl
  | cons a l ih => intro rs; simp [List.foldl_cons, delIdx, ih]

/-- Removing the reverse-ordered collected indices leaves exactly the
records that are still pending, in their original order. -/
theorem tickScan_removal (now : Int) :
    ∀ rs : List Rec,
      (tickScan rs now 0).2.reverse.foldl delIdx rs =
        rs.filter fun r => decide (now < r.trigger_time) := by
  intro rs
  induction rs with
  | nil => rfl
  | cons r rest ih =>
    have hshift := tickScan_snd_shift now rest 1
    by_cases h : r.trigger_time ≤ now
    · have h' : ¬ now < r.trigger_time := not_lt.mpr h
      simp only [tickScan, if_pos h, hshift, List.reverse_cons,
        List.foldl_append, ← List.map_reverse, foldl_delIdx_shift,
        List.foldl_cons, List.foldl_nil, delIdx, List.filter_cons]
      simp [h', ih]
    · have h' : now < r.trigger_time := not_le.mp h
      simp only [tickScan, if_neg h, hshift, ← List.map_reverse,
        foldl_delIdx_shift, List.filter_cons]
      simp [h', ih]

/-- C2.  One daemon tick notifies exactly the due records (trigger_at ≤ now)
in their original order, each with its own message, and what gets saved back
is exactly the pending records (trigger_at > now) in their original relative
order.  In particular a single past-due record produces exactly one
notification with its message and an empty saved store. -/
theorem daemon_tick_partition (rs : List Rec) (now : Int) :
    notifierTick rs now =
      ((rs.filter fun r => decide (r.trigger_time ≤ now)).map Rec.message,
       rs.filter fun r => decide (now < r.trigger_time)) := by
  unfold notifierTick
  exact Prod.ext (tickScan_fst now rs 0) (tickScan_removal now rs)

/-- C10.  The two notifier copies are per-tick behaviourally equivalent:
their loop bodies produce the same notification sequence and the same saved
store on every loaded store contents and instant. -/
theorem notifier_ticks_equivalent (rs : List Rec) (now : Int) :
    notifierTick rs now = notifierTickDup rs now := by
  have h1 : ∀ (l : List Rec) (i : Nat), tickScan l now i = tickScanDup l now i := by
    intro l
    induction l with
    | nil => intro i; rfl
    | cons r rest ih => intro i; simp [tickScan, tickScanDup, ih (i + 1)]
  have h2 : delIdx = delIdxDup := by
    funext l
    induction l with
    | nil => funext n; rfl
    | cons r rest ih =>
      funext n
      cases n with
      | zero => rfl
      | succ n => simp [delIdx, delIdxDup, congrFun ih n]
  unfold notifierTick notifierTickDup
  rw [h1, h2]

/-! ## Claim C7: store load on missing or malformed files -/

/-- C7.  load_reminders yields the empty sequence both when the backing file
is missing and when its contents fail to decode (the logged JSONDecodeError
branch); the function is total, so within the modelled failure modes it
never raises to its caller. -/
theorem load_reminders_empty_on_failure (decode : String → Option (List Rec))
    (s : String) (hbad : decode s = none) :
    load_reminders decode .missing = [] ∧
      load_reminders decode (.present s) = [] := by
  refine ⟨rfl, ?_⟩
  simp [load_reminders, hbad]

/-- Witness for C7 at a concrete decoder and file contents. -/
theorem load_reminders_empty_on_failure_witness :
    load_reminders (fun _ => (none : Option (List Rec))) .missing = [] ∧
      load_reminders (fun _ => (none : Option (List Rec)))
        (.present "not json") = [] :=
  load_reminders_empty_on_failure (fun _ => none) "not json" rfl

/-! ## Claim C3: an error inside one loop iteration -/

/-- A tick oracle whose first iteration raises; later iterations would each
deliver one notification. -/
def failingTicks : Nat → TickOutcome :=
  fun i => if i = 0 then .raise "boom" else .ok ["second tick ran"]

/-- C3 counterexample.  The try/except of reminderNotifier.main wraps the
whole while-loop, so the error raised in iteration 0 is caught and logged
but ends the loop: the run stops with the caught error and iteration 1 never
runs (its message never appears), whereas the claim says a failure in one
tick never terminates the loop.  The second conjunct shows the same two
iterations with no failure do produce the message. -/
theorem loop_error_cex :
    notifierMain failingTicks 2 = ([], .errorCaught "boom") ∧
      notifierMain (fun _ => .ok ["second tick ran"]) 2 =
        (["second tick ran", "second tick ran"], .stillRunning) :=
  ⟨rfl, rfl⟩

/-- The messages the first n iterations starting at index i would deliver. -/
def ticksOutput (ticks : Nat → TickOutcome) : Nat → Nat → List String
  | _, 0 => []
  | i, n + 1 =>
    (match ticks i with
     | .ok ms => ms
     | _ => []) ++ ticksOutput ticks (i + 1) n

theorem notifierMainRun_raise (ticks : Nat → TickOutcome) (e : String) :
    ∀ (n fuel i : Nat) (acc : List String), n < fuel →
      (∀ m, m < n → ticks (i + m) = .ok
        (match ticks (i + m) with | .ok ms => ms | _ => [])) →
      ticks (i + n) = .raise e →
      notifierMainRun ticks fuel i acc =
        (acc ++ ticksOutput ticks i n, .errorCaught e) := by
  intro n
  induction n with
  | zero =>
    intro fuel i acc hf _ herr
    match fuel, hf with
    | fuel + 1, _ =>
      simp only [notifierMainRun, Nat.add_zero] at herr ⊢
      rw [herr]
      simp [ticksOutput]
  | succ n ih =>
    intro fuel i acc hf hok herr
    match fuel, hf with
    | fuel + 1, hf =>
      have h0 := hok 0 (Nat.succ_pos n)
      rw [Nat.add_zero] at h0
      simp only [notifierMainRun]
      rw [h0]
      have := ih fuel (i + 1) (acc ++ (match ticks i with | .ok ms => ms | _ => []))
        (Nat.lt_of_succ_lt_succ hf)
        (fun m hm => by
          have := hok (m + 1) (Nat.succ_lt_succ hm)
          rwa [show i + (m + 1) = i + 1 + m by omega] at this)
        (by rwa [show i + 1 + n = i + (n + 1) by omega])
      refine this.trans ?_
      simp [ticksOutput, List.append_assoc]

/-- C3 amended.  An unhandled error in iteration n (all earlier iterations
completing normally) is caught, logged, and terminates the polling loop:
the run delivers exactly the output of the first n iterations and stops with
the caught error — subsequent iterations do not run. -/
theorem loop_error_terminates (ticks : Nat → TickOutcome) (n fuel : Nat)
    (e : String) (hfuel : n < fuel)
    (hok : ∀ m, m < n → ticks m = .ok
      (match ticks m with | .ok ms => ms | _ => []))
    (herr : ticks n = .raise e) :
    notifierMain ticks fuel = (ticksOutput ticks 0 n, .errorCaught e) := by
  unfold notifierMain
  have := notifierMainRun_raise ticks e n fuel 0 [] hfuel
    (fun m hm => by simpa using hok m hm) (by simpa using herr)
  simpa using this

/-- Witness for the amended C3 at a concrete tick oracle failing at
iteration 1. -/
theorem loop_error_terminates_witness :
    notifierMain (fun i => if i = 1 then .raise "late" else .ok ["t"]) 3 =
      (ticksOutput (fun i => if i = 1 then .raise "late" else .ok ["t"]) 0 1,
       .errorCaught "late") :=
  loop_error_terminates _ 1 3 "late" (by norm_num)
    (fun m hm => by interval_cases m; rfl) rfl

/-! ## Claim C8: stale-lock handling of the singleton guard -/

/-- An environment with a lock file naming a dead PID while a matching
daemon process would be found by the broader scan. -/
def staleLockEnv : GuardEnv :=
  { lock := .pid 42, alive := fun _ => false, scanFound := true }

/-- C8 counterexample.  With a lock whose PID is dead, the claim says the
stale lock is deleted and the broader scan decides the result (true here);
the code instead returns False at once, keeping the lock and never
consulting the scan. -/
theorem stale_lock_cex :
    is_notifier_running staleLockEnv = (false, .pid 42) ∧
      ¬ ((is_notifier_running staleLockEnv).2 = .absent ∧
         (is_notifier_running staleLockEnv).1 = staleLockEnv.scanFound) := by
  refine ⟨rfl, ?_⟩
  intro h
  simpa [is_notifier_running, staleLockEnv] using h.1

/-- C8 amended.  Actual behaviour of is_notifier_running (Unix branch): with
a readable lock the os.kill probe alone decides and the lock is kept even
when the PID is dead; when reading or parsing the lock raises, the lock is
deleted and False is returned without scanning; the broader pgrep scan runs
only when no lock file exists, and then the result is true iff it finds a
matching process. -/
theorem is_notifier_running_behavior (e : GuardEnv) :
    (∀ p, e.lock = .pid p → is_notifier_running e = (e.alive p, .pid p)) ∧
      (e.lock = .unreadable → is_notifier_running e = (false, .absent)) ∧
      (e.lock = .absent → is_notifier_running e = (e.scanFound, .absent)) := by
  refine ⟨fun p hp => ?_, fun hu => ?_, fun ha => ?_⟩
  · cases h : e.alive p <;> simp [is_notifier_running, hp, h]
  · simp [is_notifier_running, hu]
  · simp [is_notifier_running, ha]

/-- Witness for the amended C8 in the unreadable-lock case. -/
theorem is_notifier_running_behavior_witness :
    is_notifier_running
      { lock := .unreadable, alive := fun _ => true, scanFound := true } =
      (false, .absent) :=
  (is_notifier_running_behavior _).2.1 rfl

/-! ## Claim C5: the never-empty message invariant -/

/-- C5 counterexample.  The CLI path that actually persists records
(remindMe.py parse_reminder / process_reminder) has no empty-message
fallback: on input "in 5 minutes" the matched phrase is the whole text, the
message comes out empty, and the record is persisted with message empty —
against the claim that every persisted record has a non-empty message. -/
theorem persisted_empty_message_cex :
    process_reminder "in 5 minutes" "remindMe in 5 minutes" 0 [] =
      some [{ timestamp := 0, trigger_time := 300, message := "",
              full_command := "remindMe in 5 minutes" }] := by
  decide

/-- C5 amended.  The never-empty invariant does hold for the
ReminderParser component: its extracted message falls back to the literal
"Reminder" when the remainder is empty, so the parsed message is never the
empty string (the CLI's own persist path is the part the claim loses). -/
theorem messageOrDefault_ne_empty (m : List Char) : messageOrDefault m ≠ "" := by
  unfold messageOrDefault
  split_ifs with h
  · decide
  · intro hcon
    exact h (congrArg String.data hcon)

theorem reminderParser_message_nonempty (dp : String → Option Int)
    (input : String) (now : Int) :
    (reminderParserParse dp input now).message ≠ "" :=
  messageOrDefault_ne_empty _

/-! ## Claim C6: no past trigger is persisted -/

/-- C6 counterexample.  The code has no PastTriggerError: the input
"in 0 seconds" resolves to a trigger instant equal to the creation instant
(not strictly in the future), yet a record is persisted. -/
theorem past_trigger_persisted_cex :
    process_reminder "in 0 seconds" "remindMe in 0 seconds" 7 [] =
      some [{ timestamp := 7, trigger_time := 7, message := "",
              full_command := "remindMe in 0 seconds" }] := by
  decide

theorem calculate_seconds_until_nonneg (ti : TimeInfo) (now : Int) (s : Int)
    (h : calculate_seconds_until ti now = some s) : 0 ≤ s := by
  cases ti with
  | at_ ts msg =>
    simp only [calculate_seconds_until] at h
    cases htm : strptimeCascade (removeSpaces ts.data) with
    | none => rw [htm] at h; exact absurd h (by simp)
    | some tm =>
      rw [htm] at h
      simp only [Option.some.injEq] at h
      subst h
      unfold combineDT dateFloor timeOfDay secsPerDay
      split_ifs <;> omega
  | in_ amount unit msg =>
    simp only [calculate_seconds_until] at h
    split_ifs at h <;>
      simp only [Option.some.injEq] at h <;> subst h <;> positivity

/-- C6 amended.  Nothing is rejected for being in the past: whenever
process_reminder persists at all, it appends exactly one record whose
creation instant is now and whose trigger instant is greater than or equal
to (not strictly greater than) its creation instant; inputs resolving to
exactly now (such as "in 0 seconds") are persisted without error. -/
theorem process_reminder_appends_nonpast (text fc : String) (now : Int)
    (store out : List Rec)
    (h : process_reminder text fc now store = some out) :
    ∃ rec : Rec, out = store ++ [rec] ∧ rec.timestamp = now ∧
      rec.timestamp ≤ rec.trigger_time := by
  unfold process_reminder at h
  split at h
  · exact absurd h (by simp)
  · rename_i ti hp
    split at h
    · exact absurd h (by simp)
    · rename_i secs hc
      simp only [Option.some.injEq] at h
      refine ⟨⟨now, now + secs, ti.message, fc⟩, h.symm, rfl, ?_⟩
      have := calculate_seconds_until_nonneg ti now secs hc
      simpa using this

/-- Witness for the amended C6 at a concrete appended record. -/
theorem process_reminder_appends_nonpast_witness :
    ∃ rec : Rec,
      [({ timestamp := 5, trigger_time := 125, message := "",
          full_command := "c" } : Rec)] = [] ++ [rec] ∧
        rec.timestamp = 5 ∧ rec.timestamp ≤ rec.trigger_time :=
  process_reminder_appends_nonpast "in 2 minutes" "c" 5 []
    [{ timestamp := 5, trigger_time := 125, message := "",
       full_command := "c" }] rfl

/-! ## Claim C1: interval expressions and the unit table -/

/-- The components the Parser extracts from an input, over the lowercased
stripped text exactly as __init__ prepares it. -/
def parsedComponents (input : String) : TimeComponents :=
  extractTimeComponents (pyStrip (lowerL input.data))

theorem reminderParserParse_trigger (dp : String → Option Int)
    (input : String) (now : Int) :
    (reminderParserParse dp input now).trigger_time =
      determineTriggerTime dp (pyStrip (lowerL input.data))
        (parsedComponents input) now := rfl

/-- C1 counterexample.  The interval pattern accepts y as a year
abbreviation, but TIME_UNITS has no key y, so the lookup falls back to the
default 60: on "in 2 y" the code resolves now + 120 seconds, not the
now + 2*31536000 the claim's unit table demands. -/
theorem interval_unit_y_cex :
    (reminderParserParse (fun _ => none) "in 2 y" 0).trigger_time =
      some 120 ∧ (120 : Int) ≠ 0 + (2 : Int) * 31536000 := by
  exact ⟨by decide, by decide⟩

/-- Modelled from the claim's words: the unit table of the claim (spec
section 4.1a), extended with the abbreviations the interval pattern accepts,
for comparison with the code's TIME_UNITS dictionary. -/
def specUnitTable : List (String × Nat) :=
  [("second", 1), ("sec", 1), ("s", 1),
   ("minute", 60), ("min", 60), ("m", 60),
   ("hour", 3600), ("hr", 3600), ("h", 3600),
   ("day", 86400), ("d", 86400),
   ("week", 604800), ("w", 604800),
   ("month", 2592000),
   ("year", 31536000), ("y", 31536000)]

/-- C1 amended.  Whenever the extracted interval component carries any
recognised unit other than the abbreviation y, the interval wins outright —
regardless of every other time component in the input — and the trigger is
exactly now + N * unit-seconds per the claim's table; the abbreviation y is
the single unit the claim loses (it falls back to 60 seconds-per-unit). -/
theorem interval_wins_with_table (dp : String → Option Int) (input : String)
    (now : Int) (q : Nat) (u fm : String) (k : Nat)
    (hint : (parsedComponents input).interval = some ⟨q, u, fm⟩)
    (htab : (u, k) ∈ specUnitTable) (hy : u ≠ "y") :
    (reminderParserParse dp input now).trigger_time =
      some (now + (q : Int) * (k : Int)) := by
  rw [reminderParserParse_trigger]
  have hu : timeUnitsGet u = k := by
    fin_cases htab <;> first | decide | exact absurd rfl hy
  simp only [determineTriggerTime, hint, hu]

/-- Witness for the amended C1 on a co-occurring-text-free interval input. -/
theorem interval_wins_with_table_witness :
    (reminderParserParse (fun _ => none) "check email in 30 minutes"
      1000).trigger_time = some (1000 + (30 : Int) * (60 : Int)) :=
  interval_wins_with_table (fun _ => none) "check email in 30 minutes" 1000
    30 "minute" "in 30 minutes" 60 (by decide) (by decide) (by decide)

/-! ## Claim C4: clock-time inputs with no date -/

/-- C4.  For an input whose extraction finds no interval and no date but a
clock time tv that dateparser resolves to pt: with no relative-day keyword,
a combined same-day time that is ≤ now gets exactly one day added; with a
relative-day keyword the respective offset (+1, +7, +30 days) is applied and
no additional roll-forward happens. -/
theorem clock_time_resolution (dp : String → Option Int) (input : String)
    (now pt : Int) (tv : String)
    (hi : (parsedComponents input).interval = none)
    (hd : (parsedComponents input).date = none)
    (htv : timeValueOf (parsedComponents input) = some tv)
    (hdp : dp tv = some pt) :
    ((parsedComponents input).tomorrow = none →
      (parsedComponents input).next_week = none →
      (parsedComponents input).next_month = none →
      combineDT now (timeOfDay pt) ≤ now →
      (reminderParserParse dp input now).trigger_time =
        some (combineDT now (timeOfDay pt) + secsPerDay)) ∧
    ((parsedComponents input).tomorrow.isSome →
      (reminderParserParse dp input now).trigger_time =
        some (combineDT now (timeOfDay pt) + 1 * secsPerDay)) ∧
    ((parsedComponents input).tomorrow = none →
      (parsedComponents input).next_week.isSome →
      (reminderParserParse dp input now).trigger_time =
        some (combineDT now (timeOfDay pt) + 7 * secsPerDay)) ∧
    ((parsedComponents input).tomorrow = none →
      (parsedComponents input).next_week = none →
      (parsedComponents input).next_month.isSome →
      (reminderParserParse dp input now).trigger_time =
        some (combineDT now (timeOfDay pt) + 30 * secsPerDay)) := by
  have hbase : ∀ adj : Int, dayAdjustment (parsedComponents input) = adj →
      (reminderParserParse dp input now).trigger_time =
        (if adj > 0 then some (combineDT now (timeOfDay pt) + adj * secsPerDay)
         else if combineDT now (timeOfDay pt) ≤ now then
           some (combineDT now (timeOfDay pt) + secsPerDay)
         else some (combineDT now (timeOfDay pt))) := by
    intro adj hadj
    rw [reminderParserParse_trigger]
    simp only [determineTriggerTime, hi, hd, htv, hdp, hadj, Option.map_none']
  refine ⟨fun h1 h2 h3 hle => ?_, fun h1 => ?_, fun h1 h2 => ?_,
    fun h1 h2 h3 => ?_⟩
  · rw [hbase 0 (by simp [dayAdjustment, h1, h2, h3])]
    simp [hle]
  · rw [hbase 1 (by simp [dayAdjustment, h1])]
    norm_num
  · rw [hbase 7 (by simp [dayAdjustment, h1, h2])]
    norm_num
  · rw [hbase 30 (by simp [dayAdjustment, h1, h2, h3])]
    norm_num

/-- Witness for C4, first conjunct: "call mom at 3pm" with dateparser
resolving 3pm to 15:00 of day zero and now at 16:40 of day zero rolls the
trigger to 15:00 the next day. -/
theorem clock_time_resolution_witness :
    (reminderParserParse (fun s => if s = "3pm" then some 54000 else none)
      "call mom at 3pm" 60000).trigger_time =
      some (combineDT 60000 (timeOfDay 54000) + secsPerDay) :=
  (clock_time_resolution (fun s => if s = "3pm" then some 54000 else none)
    "call mom at 3pm" 60000 54000 "3pm" (by decide) (by decide) (by decide)
    (by decide)).1 (by decide) (by decide) (by decide) (by decide)

/-! ## Claim C9: idempotence of message extraction -/

/-- C9 counterexample.  With two interval expressions in the input only the
last match is stored, so only it is removed from the message: the first
parse of "check in 5 minutes and in 10 minutes" yields the message
"check in 5 minutes and"; re-running the Parser on that message alone parses
successfully (trigger now + 300) and erodes it further to "check and" — not
a ParseFailure and not the message unchanged. -/
theorem message_extraction_not_idempotent_cex :
    (reminderParserParse (fun _ => none)
      "check in 5 minutes and in 10 minutes" 0).message =
      "check in 5 minutes and" ∧
    (reminderParserParse (fun _ => none)
      "check in 5 minutes and" 0).trigger_time = some 300 ∧
    (reminderParserParse (fun _ => none)
      "check in 5 minutes and" 0).message = "check and" ∧
    ("check and" : String) ≠ "check in 5 minutes and" := by
  exact ⟨by decide, by decide, by decide, by decide⟩

/-- A components record with nothing matched. -/
def emptyComponents : TimeComponents :=
  ⟨none, none, none, none, none, none, none, none⟩

/-- C9 amended.  Re-running the Parser can erode the message whenever the
extracted message still contains a time expression, a keyword, or a
dangling preposition (see the counterexample); on a message from which the
Parser's second run extracts no time components and no keywords, and which
the whitespace/dangler normalisations leave unchanged, the re-run yields a
ParseFailure or returns the message verbatim. -/
theorem reparse_fixed_message (dp : String → Option Int) (m : String)
    (now : Int)
    (hne : m.data ≠ [])
    (hstrip : pyStrip m.data = m.data)
    (hcomp : extractTimeComponents (pyStrip (lowerL m.data)) =
      emptyComponents)
    (hkw : identifyKeywords (pyStrip (lowerL m.data)) = [])
    (hcoll : collapseWs m.data = m.data)
    (htd : removeTrailingDangler m.data = m.data)
    (hld : removeLeadingDangler m.data = m.data) :
    parse_reminder_mod dp m now = none ∨
      ∃ r, parse_reminder_mod dp m now = some r ∧ r.message = m := by
  have hmsg : (reminderParserParse dp m now).message = m := by
    show extractMessage (pyStrip m.data)
      (extractTimeComponents (pyStrip (lowerL m.data)))
      (identifyKeywords (pyStrip (lowerL m.data))) = m
    rw [hcomp, hkw, hstrip]
    unfold extractMessage
    rw [show componentFullMatches emptyComponents = [] from by decide]
    simp only [emptyComponents, List.foldl_nil, List.append_nil,
      List.nil_append]
    rw [hcoll, hstrip, htd, hld]
    unfold messageOrDefault
    rw [if_neg hne]
  by_cases hnone : (reminderParserParse dp m now).trigger_time = none
  · left
    simp [parse_reminder_mod, hnone]
  · right
    refine ⟨reminderParserParse dp m now, ?_, hmsg⟩
    obtain ⟨t, ht⟩ := Option.ne_none_iff_exists'.mp hnone
    simp [parse_reminder_mod, ht]

/-- Witness for the amended C9: the message "buy groceries" is fixed under
re-parsing (with a dateparser that succeeds on the free text). -/
theorem reparse_fixed_message_witness :
    parse_reminder_mod (fun _ => some 0) "buy groceries" 0 = none ∨
      ∃ r, parse_reminder_mod (fun _ => some 0) "buy groceries" 0 = some r ∧
        r.message = "buy groceries" :=
  reparse_fixed_message (fun _ => some 0) "buy groceries" 0 (by decide)
    (by decide) (by decide) (by decide) (by decide) (by decide) (by decide)

end TerminalReminder
